import Mathlib

/-!
Verification of the slot-game reel core (Reel motion state machine and
ReelArea orchestration) against its natural-language specification.

The embedding below is a shallow translation of the TypeScript sources:
* `Reel` (the main, downward-motion variant): construction, `startSpinning`
  (ease-in tween, then the simulated infinite loop tween with its per-frame
  callback), `loopReel`, `stopSpinning`, `beginStoppingAnimation`.
* The up/down draft variant of `Reel` (its `updateSymbolPosition` and the
  stopping tween's per-frame callback) and the four-direction draft variant
  (whose `beginStoppingAnimation` begins with an unconditional return).
* `ReelArea`: the configuration check in `startSpinning`, the deferred
  start/stop schedule, and the `stoppedSpinning` aggregation handler.

Numbers are rationals (all arithmetic in the source on the modelled paths is
exact: sums, differences and divisions of configuration constants).  The
GSAP tweening driver is external; its per-frame and on-complete callbacks
are modelled as events carrying the driver-supplied tween time or eased
position, and the per-frame state transitions are the ones the source
callbacks perform.  `AssetLoader.getRandomSymbolTexture` is modelled as an
opaque stream `supply : Nat -> Nat` of texture draws together with a cursor
that advances once per draw, exactly where the source calls it.
-/

/-- The configuration fields of `gameConfig` (src config) that the reel core
reads.  Asset paths and button sizes are UI plumbing and are not modelled. -/
structure GameConfig where
  reelsCount : Nat
  symbolsPerReel : Nat
  reelAreaWidth : Rat
  reelAreaHeight : Rat
  spinningSpeed : Rat
  stopDelay : Rat
  stopInterval : Rat
  startInterval : Rat
deriving DecidableEq, Repr

/-- The hardcoded demo configuration object from the source config file. -/
def gameConfig : GameConfig :=
  { reelsCount := 6
    symbolsPerReel := 4
    reelAreaWidth := 800
    reelAreaHeight := 400
    spinningSpeed := 3
    stopDelay := 4000
    stopInterval := 400
    startInterval := 400 }

/-- symbolHeight = reelAreaHeight / symbolsPerReel (Reel constructor). -/
def symbolHeight (c : GameConfig) : Rat :=
  c.reelAreaHeight / (c.symbolsPerReel : Rat)

/-- spinningTweenDuration = 1000 / (symbolsPerReel * spinningSpeed)
(Reel constructor). -/
def spinningTweenDuration (c : GameConfig) : Rat :=
  1000 / ((c.symbolsPerReel : Rat) * c.spinningSpeed)

/-- A tile on the ribbon: its position along the motion axis and its texture
handle (an opaque texture id). -/
structure ReelSymbol where
  y : Rat
  tex : Nat
deriving DecidableEq, Repr

/-- One symbol's update inside `Reel.loopReel` (main variant): advance by one
symbol height; if the result has crossed the bottom viewport boundary
(within eps = 0.1), wrap to just above the top and draw a fresh texture
(advancing the supply cursor `k`). -/
def loopSymbol (h H : Rat) (supply : Nat → Nat) (s : ReelSymbol) (k : Nat) :
    ReelSymbol × Nat :=
  let y1 := s.y + h
  if H - 1/10 ≤ y1 then (⟨-h, supply k⟩, k + 1) else (⟨y1, s.tex⟩, k)

/-- `Reel.loopReel` (main variant): the wrap-and-recycle pass over the whole
symbol list, threading the texture-supply cursor in source order. -/
def loopReel (h H : Rat) (supply : Nat → Nat) :
    List ReelSymbol → Nat → List ReelSymbol × Nat
  | [], k => ([], k)
  | s :: rest, k =>
    let p := loopSymbol h H supply s k
    let q := loopReel h H supply rest p.2
    (p.1 :: q.1, q.2)

/-- The phase of a reel's motion state machine.  `loopPaused` is the state of
a paused loop tween whose stop hand-off was swallowed (only reachable if
`beginStoppingAnimation` is re-entered while already stopping). -/
inductive Phase
  | idle
  | easingIn
  | looping
  | loopPaused
  | stopping
deriving DecidableEq, Repr

/-- The mutable state of one `Reel` (main variant): the symbol list, the
bulk container offset `posY`, the three flags, the texture-supply cursor,
the number of `stoppedSpinning` notifications emitted so far, and the phase
of the currently active tween. -/
structure ReelState where
  symbols : List ReelSymbol
  posY : Rat
  stopping : Bool
  backoutStarted : Bool
  needsToStop : Bool
  rng : Nat
  stoppedEmits : Nat
  phase : Phase
deriving DecidableEq, Repr

/-- The events that drive one reel: the public calls (`startSpinning`,
`stopSpinning`) and the tween callbacks of the animation driver (ease-in
completion, a loop-tween frame at tween time `t`, a stopping-tween frame
with eased bulk offset `y`, stopping-tween completion). -/
inductive ReelEv
  | startCall
  | easeInDone
  | loopFrame (t : Rat)
  | stopCall
  | stopFrame (y : Rat)
  | stopDone
deriving DecidableEq, Repr

/-- Apply one `loopReel` pass to the state (symbols and supply cursor). -/
def doLoopReel (c : GameConfig) (supply : Nat → Nat) (s : ReelState) :
    ReelState :=
  let p := loopReel (symbolHeight c) c.reelAreaHeight supply s.symbols s.rng
  { s with symbols := p.1, rng := p.2 }

/-- `Reel.beginStoppingAnimation` entry (main variant): if already stopping,
return with no state change; otherwise set the flags and start the stopping
tween. -/
def beginStoppingAnimation (s : ReelState) : ReelState :=
  if s.stopping then s
  else { s with stopping := true, backoutStarted := false, phase := .stopping }

/-- The JavaScript remainder `t % d` for the nonnegative tween times used by
the loop tween's re-seek (for positive `t` and `d` truncation and floor
agree). -/
def qmod (a b : Rat) : Rat := a - b * (⌊a / b⌋ : Int)

/-- One step of the main `Reel` state machine.  Each branch is the body of
the corresponding source callback:
* `startCall` begins the ease-in tween (contract: called from idle);
* `easeInDone` is the code after the awaited ease-in: one `loopReel` pass,
  bulk offset reset to 0, `needsToStop` cleared, loop tween started;
* `loopFrame t` is the loop tween's onUpdate: the driver has set the bulk
  offset to the linear tween value; past the one-duration boundary it runs
  `loopReel`, re-seeks the tween to `t % duration`, and if `needsToStop` is
  latched it pauses the tween and invokes `beginStoppingAnimation`;
* `stopCall` sets the `needsToStop` latch and returns;
* `stopFrame y` is the stopping tween's onUpdate: the driver has set the
  bulk offset to the eased value `y`; on the first crossing of one symbol
  height it runs `loopReel`, shifts every symbol back one height, and sets
  `backoutStarted`;
* `stopDone` is the code after the awaited stopping tween: one final
  `loopReel` pass, offset reset, `stopping` cleared, `stoppedSpinning`
  emitted. -/
def reelStep (c : GameConfig) (supply : Nat → Nat) (s : ReelState) :
    ReelEv → ReelState
  | .startCall =>
    if s.phase = .idle then { s with phase := .easingIn } else s
  | .easeInDone =>
    if s.phase = .easingIn then
      let s1 := doLoopReel c supply s
      { s1 with posY := 0, needsToStop := false, phase := .looping }
    else s
  | .loopFrame t =>
    if s.phase = .looping then
      let d := spinningTweenDuration c
      let s0 := { s with posY := symbolHeight c * t / d }
      if d < t then
        let s1 := doLoopReel c supply s0
        let s2 := { s1 with posY := symbolHeight c * qmod t d / d }
        if s2.needsToStop then
          beginStoppingAnimation { s2 with phase := .loopPaused }
        else s2
      else s0
    else s
  | .stopCall => { s with needsToStop := true }
  | .stopFrame y =>
    if s.phase = .stopping then
      let s0 := { s with posY := y }
      if s0.backoutStarted = false ∧ symbolHeight c ≤ y then
        let s1 := doLoopReel c supply s0
        { s1 with
          symbols := s1.symbols.map fun t => { t with y := t.y - symbolHeight c }
          backoutStarted := true }
      else s0
    else s
  | .stopDone =>
    if s.phase = .stopping then
      let s1 := doLoopReel c supply s
      { s1 with posY := 0, stopping := false,
                stoppedEmits := s.stoppedEmits + 1, phase := .idle }
    else s

/-- The `Reel` constructor (main variant): `symbolsPerReel + 1` symbols, the
i-th drawn as the i-th texture of the supply and placed at
`(i - 1) * symbolHeight` (the first one above the viewport), all flags
clear, supply cursor past the construction draws. -/
def initReel (c : GameConfig) (supply : Nat → Nat) : ReelState :=
  { symbols := (List.range (c.symbolsPerReel + 1)).map fun (i : Nat) =>
      ⟨((i : Rat) - 1) * symbolHeight c, supply i⟩
    posY := 0
    stopping := false
    backoutStarted := false
    needsToStop := false
    rng := c.symbolsPerReel + 1
    stoppedEmits := 0
    phase := .idle }

/-- A convenient concrete texture supply for witnesses. -/
def natSupply : Nat → Nat := fun k => k

/-- The per-symbol position dynamics of `loopReel` (main variant), isolated
from the texture draw: advance one symbol height, wrapping to just above the
viewport when the bottom boundary is crossed within eps = 0.1. -/
def wrapY (h H y : Rat) : Rat := if H - 1/10 ≤ y + h then -h else y + h

/-! ## Draft Reel variants -/

/-- The motion directions of the draft Reel variants. -/
inductive MovingDirection
  | up
  | down
  | left
  | right
deriving DecidableEq, Repr

/-- `Reel.updateSymbolPosition` of the up/down draft variant: move one symbol
height in the motion direction; if the symbol has moved offscreen (past the
bottom boundary for downward motion, past the hidden top slot for upward
motion, each within eps = 0.1), reposition it to the hidden slot on the
other side and draw a fresh texture. -/
def updateSymbolPositionUD (c : GameConfig) (supply : Nat → Nat)
    (dir : MovingDirection) (s : ReelSymbol) (k : Nat) : ReelSymbol × Nat :=
  let directionIsDown := dir = .down
  let movementY := if directionIsDown then symbolHeight c else -symbolHeight c
  let y1 := s.y + movementY
  let hasMovedOffscreen :=
    if directionIsDown then c.reelAreaHeight - 1/10 ≤ y1
    else y1 ≤ -symbolHeight c + 1/10
  if hasMovedOffscreen then
    (⟨if directionIsDown then -symbolHeight c else c.reelAreaHeight, supply k⟩,
      k + 1)
  else (⟨y1, s.tex⟩, k)

/-- `Reel.loopReel` of the up/down draft variant: `updateSymbolPosition`
applied to every symbol in order, threading the texture-supply cursor. -/
def loopReelUD (c : GameConfig) (supply : Nat → Nat) (dir : MovingDirection) :
    List ReelSymbol → Nat → List ReelSymbol × Nat
  | [], k => ([], k)
  | s :: rest, k =>
    let p := updateSymbolPositionUD c supply dir s k
    let q := loopReelUD c supply dir rest p.2
    (p.1 :: q.1, q.2)

/-- The body of the stopping tween's onUpdate callback in the up/down draft's
`beginStoppingAnimation` (the driver has set the bulk offset to the eased
value `y`): if the back-out has not started and either threshold is crossed,
run `loopReel` and shift every symbol one height (down for upward motion, up
for downward motion); `backoutStarted` is set only when the upper threshold
was the one crossed. -/
def stopFrameUD (c : GameConfig) (supply : Nat → Nat) (dir : MovingDirection)
    (s : ReelState) (y : Rat) : ReelState :=
  let s0 := { s with posY := y }
  let crossedUpperThreshold := symbolHeight c ≤ y
  let crossedLowerThreshold := y ≤ -symbolHeight c
  if s0.backoutStarted = false ∧
      (crossedUpperThreshold ∨ crossedLowerThreshold) then
    let p := loopReelUD c supply dir s0.symbols s0.rng
    let shift := if dir = .up then symbolHeight c else -symbolHeight c
    let s1 := { s0 with
      symbols := p.1.map fun t => { t with y := t.y + shift }
      rng := p.2 }
    if crossedUpperThreshold then { s1 with backoutStarted := true } else s1
  else s0

/-- Whether the up/down draft's back-out compensation branch fires on a frame
with eased offset `y` from state `s` (the condition of the onUpdate body of
`stopFrameUD`). -/
def backoutFiresUD (c : GameConfig) (s : ReelState) (y : Rat) : Prop :=
  s.backoutStarted = false ∧ (symbolHeight c ≤ y ∨ y ≤ -symbolHeight c)

instance (c : GameConfig) (s : ReelState) (y : Rat) :
    Decidable (backoutFiresUD c s y) := by
  unfold backoutFiresUD
  infer_instance

/-- `Reel.beginStoppingAnimation` of the four-direction draft variant: the
body begins with an unconditional return statement, so the call leaves the
reel state unchanged; the guard, the stopping tween and the
`stoppedSpinning` emission below it are unreachable. -/
def beginStoppingAnimationFourDir (s : ReelState) : ReelState := s

/-! ## ReelArea (orchestrator) -/

/-- One deferred command scheduled by `ReelArea.startSpinning` through
`gsap.delayedCall`: either start reel `i` (with the flag recording that the
`allStartedSpinning` grid notification is emitted immediately after that
start command inside the same callback), or latch reel `i`'s stop. -/
inductive AreaAction
  | startReel (i : Nat) (emitsAllStartedAfter : Bool)
  | stopReel (i : Nat)
deriving DecidableEq, Repr

/-- A deferred call: its delay from the `startSpinning` invocation, and what
it does. -/
structure ScheduledCall where
  time : Rat
  action : AreaAction
deriving DecidableEq, Repr

/-- The mutable grid state the modelled claims touch: the finished-stopping
counter and the number of `allStoppedSpinning` emissions so far. -/
structure AreaState where
  reelsFinishedSpinningCount : Nat
  allStoppedEmits : Nat
deriving DecidableEq, Repr

/-- The `stoppedSpinning` handler installed by the `ReelArea` constructor on
each reel: increment the finished counter and, exactly when it equals the
reel count, emit `allStoppedSpinning`. -/
def onReelStopped (n : Nat) (s : AreaState) : AreaState :=
  let cnt := s.reelsFinishedSpinningCount + 1
  { reelsFinishedSpinningCount := cnt
    allStoppedEmits :=
      if cnt = n then s.allStoppedEmits + 1 else s.allStoppedEmits }

/-- `ReelArea.startSpinning`: if `reels.length * startInterval > stopDelay`
the call throws a configuration error carrying those three quantities (so
nothing is scheduled and the finished counter is untouched); otherwise it
resets the finished counter and schedules, for each reel index `i`, a start
command at `i * startInterval` (the one for the last index also emitting
`allStartedSpinning` right after the start command) and a stop latch at
`stopDelay + i * stopInterval`. -/
def startStopSchedule (c : GameConfig) : List ScheduledCall :=
  ((List.range c.reelsCount).map fun (i : Nat) =>
    ⟨(i : Rat) * c.startInterval,
      .startReel i (decide (i = c.reelsCount - 1))⟩)
  ++ ((List.range c.reelsCount).map fun (i : Nat) =>
    ⟨c.stopDelay + (i : Rat) * c.stopInterval, .stopReel i⟩)

def areaStartSpinning (c : GameConfig) (s : AreaState) :
    Except (Nat × Rat × Rat) (AreaState × List ScheduledCall) :=
  if c.stopDelay < (c.reelsCount : Rat) * c.startInterval then
    .error (c.reelsCount, c.startInterval, c.stopDelay)
  else
    .ok ({ s with reelsFinishedSpinningCount := 0 }, startStopSchedule c)

/-- `ReelArea.stopSpinning`: latch every reel's stop immediately (model it as
the list of latch commands, all at delay zero relative to the call). -/
def areaStopSpinning (c : GameConfig) : List ScheduledCall :=
  (List.range c.reelsCount).map fun (i : Nat) => ⟨0, .stopReel i⟩

/-- The demo configuration with `stopDelay` lowered to 2000 ms; the spec's
stated inequality `(reelCount - 1) * startInterval ≤ stopDelay` holds there
(5 * 400 = 2000), yet the source check `reelCount * startInterval >
stopDelay` (6 * 400 = 2400 > 2000) throws. -/
def borderlineCfg : GameConfig := { gameConfig with stopDelay := 2000 }

/-- Whether a scheduled call emits the `allStartedSpinning` notification
right after its start command. -/
def emitsAllStarted (cl : ScheduledCall) : Bool :=
  match cl.action with
  | .startReel _ b => b
  | .stopReel _ => false

/-- A concrete reel state in the looping phase with a stop request latched,
used to witness the boundary hand-off. -/
def loopingLatchedState : ReelState :=
  { initReel gameConfig natSupply with phase := .looping, needsToStop := true }

/-- The texture handles of a reel's tiles, in recycle order. -/
def texes (s : ReelState) : List Nat := s.symbols.map ReelSymbol.tex

/-- The up/down draft reel at rest for upward motion (tiles at i * 100 per
its constructor), mid-stop: stopping latched and running, back-out not yet
started. -/
def upDraftRestState : ReelState :=
  { symbols := [⟨0, 0⟩, ⟨100, 1⟩, ⟨200, 2⟩, ⟨300, 3⟩, ⟨400, 4⟩]
    posY := 0
    stopping := true
    backoutStarted := false
    needsToStop := true
    rng := 5
    stoppedEmits := 0
    phase := .stopping }

/-- The main reel mid-stop (stopping tween running, back-out pending). -/
def downStoppingState : ReelState :=
  { initReel gameConfig natSupply with stopping := true, phase := .stopping }

/-- The resting offset grid of the main (downward) reel: tile `j` rests at
`(j - 1) * symbolHeight` (the constructor's initial placement). -/
def restOffset (c : GameConfig) (j : Nat) : Rat :=
  ((j : Rat) - 1) * symbolHeight c

/-- The resting offsets rotated by `m` recycle steps: the position list a
reel shows after `m` wrap-and-recycle passes from rest. -/
def rotPositions (c : GameConfig) (m : Nat) : List Rat :=
  (List.range (c.symbolsPerReel + 1)).map fun i =>
    restOffset c ((i + m) % (c.symbolsPerReel + 1))

/-- The tile positions of a reel state, in recycle order. -/
def posList (s : ReelState) : List Rat := s.symbols.map ReelSymbol.y

/-- One full start-stop cycle of the reel machine: the start call, the
ease-in completion, an arbitrary run of loop-tween frames, the stop latch,
the boundary frame that hands off to the stopping animation, the stopping
frame that crosses the one-symbol-height threshold (the back-out
compensation), and the stopping-tween completion. -/
def fullCycle (c : GameConfig) (supply : Nat → Nat) (ts : List Rat)
    (tStop yStop : Rat) : ReelState :=
  reelStep c supply
    (reelStep c supply
      (reelStep c supply
        (reelStep c supply
          (ts.foldl (fun s t => reelStep c supply s (.loopFrame t))
            (reelStep c supply
              (reelStep c supply (initReel c supply) .startCall) .easeInDone))
          .stopCall)
        (.loopFrame tStop))
      (.stopFrame yStop))
    .stopDone

/-- The looping-phase invariant: the reel is looping with no pending stop,
nothing stopped yet, and its tile positions are the resting grid rotated by
some number of recycle steps. -/
def LoopInv (c : GameConfig) (s : ReelState) : Prop :=
  s.phase = .looping ∧ s.needsToStop = false ∧ s.stopping = false ∧
  s.stoppedEmits = 0 ∧ ∃ m, posList s = rotPositions c m

/-! ## Helper lemmas -/

lemma countP_range_eq_single (n m : Nat) :
    (List.range n).countP (fun i => decide (i = m)) = if m < n then 1 else 0 := by
  induction n with
  | zero => simp
  | succ n ih =>
    rw [List.range_succ, List.countP_append, ih]
    simp only [List.countP_cons, List.countP_nil]
    by_cases hmn : m < n
    · have h1 : ¬ (n = m) := by omega
      have h2 : m < n + 1 := by omega
      simp [hmn, h1, h2]
    · by_cases hmn' : m = n
      · subst hmn'
        simp [hmn]
      · have h1 : ¬ (n = m) := by omega
        have h2 : ¬ (m < n + 1) := by omega
        simp [hmn, h1, h2]

lemma countP_schedule_stop_part (c : GameConfig) :
    ((List.range c.reelsCount).map fun (i : Nat) =>
        (⟨c.stopDelay + (i : Rat) * c.stopInterval, .stopReel i⟩ : ScheduledCall)).countP
      emitsAllStarted = 0 := by
  rw [List.countP_map]
  apply List.countP_eq_zero.mpr
  intro i _
  simp [emitsAllStarted, Function.comp]

lemma countP_schedule_start_part (c : GameConfig) (hn : 0 < c.reelsCount) :
    ((List.range c.reelsCount).map fun (i : Nat) =>
        (⟨(i : Rat) * c.startInterval,
          .startReel i (decide (i = c.reelsCount - 1))⟩ : ScheduledCall)).countP
      emitsAllStarted = 1 := by
  rw [List.countP_map]
  have heq :
      ((List.range c.reelsCount).countP
        (emitsAllStarted ∘ fun (i : Nat) =>
          (⟨(i : Rat) * c.startInterval,
            .startReel i (decide (i = c.reelsCount - 1))⟩ : ScheduledCall)))
      = (List.range c.reelsCount).countP
          (fun i => decide (i = c.reelsCount - 1)) := by
    apply List.countP_congr
    intro i _
    simp [emitsAllStarted, Function.comp]
  rw [heq, countP_range_eq_single]
  have : c.reelsCount - 1 < c.reelsCount := by omega
  simp [this]

/-! ## C1: the configuration check of ReelArea.startSpinning -/

/-- C1 counterexample: the claim states the configuration error is raised
if and only if `(reelCount - 1) * startStaggerInterval > stopDelay`, so that
every configuration with `(reelCount - 1) * startStaggerInterval ≤ stopDelay`
passes.  With 6 reels, a 400 ms start interval and a 2000 ms stop delay we
have `(6 - 1) * 400 = 2000 ≤ 2000`, yet the source check compares
`reels.length * startInterval = 2400 > 2000` and throws. -/
theorem c1_claim_counterexample :
    ((borderlineCfg.reelsCount - 1 : Nat) : Rat) * borderlineCfg.startInterval
        ≤ borderlineCfg.stopDelay ∧
    areaStartSpinning borderlineCfg ⟨3, 0⟩ =
      .error (borderlineCfg.reelsCount, borderlineCfg.startInterval,
        borderlineCfg.stopDelay) := by
  constructor
  · norm_num [borderlineCfg, gameConfig]
  · rw [areaStartSpinning, if_pos]
    norm_num [borderlineCfg, gameConfig]

/-- C1 amended: `ReelArea.startSpinning` raises a configuration error if and
only if `reelCount * startStaggerInterval > stopDelay`; on violation it
fails synchronously with an error naming the reel count, the start interval
and the stop delay, having scheduled nothing and left the finished-stopping
count untouched; every configuration with `reelCount * startStaggerInterval
≤ stopDelay` passes the check and schedules the full start/stop plan. -/
theorem c1_amended_config_check (c : GameConfig) (s : AreaState) :
    ((∃ e, areaStartSpinning c s = .error e) ↔
      c.stopDelay < (c.reelsCount : Rat) * c.startInterval) ∧
    (c.stopDelay < (c.reelsCount : Rat) * c.startInterval →
      areaStartSpinning c s =
        .error (c.reelsCount, c.startInterval, c.stopDelay)) ∧
    (¬ c.stopDelay < (c.reelsCount : Rat) * c.startInterval →
      areaStartSpinning c s =
        .ok ({ s with reelsFinishedSpinningCount := 0 }, startStopSchedule c)) := by
  unfold areaStartSpinning
  by_cases hc : c.stopDelay < (c.reelsCount : Rat) * c.startInterval
  · simp [hc]
  · simp [hc]

/-- C1 amended witness: at the borderline configuration the amended check
fires the error carrying the offending quantities. -/
theorem c1_amended_config_check_witness :
    areaStartSpinning borderlineCfg ⟨3, 0⟩ =
      .error (borderlineCfg.reelsCount, borderlineCfg.startInterval,
        borderlineCfg.stopDelay) :=
  (c1_amended_config_check borderlineCfg ⟨3, 0⟩).2.1
    (by norm_num [borderlineCfg, gameConfig])

/-! ## C6: the staggered start/stop schedule -/

/-- C6: when the configuration check passes, `ReelArea.startSpinning`
schedules for each reel index `i` a start command at `i * startInterval` and
a stop latch at `stopDelay + i * stopInterval`; the `allStartedSpinning`
notification is attached to exactly one scheduled call, the last reel's
start command, emitted immediately after that start command is issued. -/
theorem c6_stagger_schedule (c : GameConfig) (s : AreaState)
    (hn : 0 < c.reelsCount)
    (hok : ¬ c.stopDelay < (c.reelsCount : Rat) * c.startInterval) :
    areaStartSpinning c s =
      .ok ({ s with reelsFinishedSpinningCount := 0 }, startStopSchedule c) ∧
    (∀ i, i < c.reelsCount →
      (startStopSchedule c)[i]? =
        some ⟨(i : Rat) * c.startInterval,
          .startReel i (decide (i = c.reelsCount - 1))⟩) ∧
    (∀ i, i < c.reelsCount →
      (startStopSchedule c)[c.reelsCount + i]? =
        some ⟨c.stopDelay + (i : Rat) * c.stopInterval, .stopReel i⟩) ∧
    (startStopSchedule c)[c.reelsCount - 1]? =
      some ⟨((c.reelsCount - 1 : Nat) : Rat) * c.startInterval,
        .startReel (c.reelsCount - 1) true⟩ ∧
    (startStopSchedule c).countP emitsAllStarted = 1 := by
  have hlen1 : ((List.range c.reelsCount).map fun (i : Nat) =>
      (⟨(i : Rat) * c.startInterval,
        .startReel i (decide (i = c.reelsCount - 1))⟩ : ScheduledCall)).length
      = c.reelsCount := by
    simp
  have hstart : ∀ i, i < c.reelsCount →
      (startStopSchedule c)[i]? =
        some ⟨(i : Rat) * c.startInterval,
          .startReel i (decide (i = c.reelsCount - 1))⟩ := by
    intro i hi
    unfold startStopSchedule
    rw [List.getElem?_append, hlen1, if_pos hi]
    simp [hi]
  refine ⟨by simp [areaStartSpinning, hok], hstart, ?_, ?_, ?_⟩
  · intro i hi
    unfold startStopSchedule
    rw [List.getElem?_append_right (by simp)]
    simp [hi]
  · have h1 := hstart (c.reelsCount - 1) (by omega)
    simpa using h1
  · unfold startStopSchedule
    rw [List.countP_append, countP_schedule_start_part c hn,
      countP_schedule_stop_part c]

/-- C6 witness: a 3-reel grid with a 100 ms start stagger schedules the
third reel's start command at 200 ms with the `allStartedSpinning`
notification attached to it immediately afterwards, and to no other call. -/
theorem c6_stagger_schedule_witness :
    (startStopSchedule { gameConfig with reelsCount := 3, startInterval := 100 })[2]? =
      some ⟨200, .startReel 2 true⟩ ∧
    (startStopSchedule
      { gameConfig with reelsCount := 3, startInterval := 100 }).countP
        emitsAllStarted = 1 := by
  have h := c6_stagger_schedule
    { gameConfig with reelsCount := 3, startInterval := 100 } ⟨0, 0⟩
    (by norm_num) (by norm_num [gameConfig])
  refine ⟨?_, h.2.2.2.2⟩
  have h2 := h.2.2.2.1
  norm_num at h2
  exact h2

/-! ## C7: stoppedSpinning aggregation and the finished counter -/

/-- C7: each reel's `stoppedSpinning` notification increments
`reelsFinishedSpinningCount` by one; starting from a count of zero, the grid
emits `allStoppedSpinning` exactly once, precisely at the notification that
brings the count to `reelCount`; and the successful `startSpinning` of the
next cycle resets the count to zero. -/
theorem c7_stop_counter (c : GameConfig) (s0 : AreaState)
    (hn : 0 < c.reelsCount) (hc : s0.reelsFinishedSpinningCount = 0) :
    (∀ s : AreaState, (onReelStopped c.reelsCount s).reelsFinishedSpinningCount
        = s.reelsFinishedSpinningCount + 1) ∧
    (∀ j, ((onReelStopped c.reelsCount)^[j] s0).allStoppedEmits =
        s0.allStoppedEmits + (if c.reelsCount ≤ j then 1 else 0)) ∧
    (∀ (s s' : AreaState) (calls : List ScheduledCall),
      areaStartSpinning c s = .ok (s', calls) →
        s'.reelsFinishedSpinningCount = 0) := by
  have aux : ∀ j,
      ((onReelStopped c.reelsCount)^[j] s0).reelsFinishedSpinningCount = j ∧
      ((onReelStopped c.reelsCount)^[j] s0).allStoppedEmits =
        s0.allStoppedEmits + (if c.reelsCount ≤ j then 1 else 0) := by
    intro j
    induction j with
    | zero =>
      constructor
      · simpa using hc
      · have : ¬ c.reelsCount ≤ 0 := by omega
        simp [this]
    | succ j ih =>
      obtain ⟨ih1, ih2⟩ := ih
      rw [Function.iterate_succ_apply']
      constructor
      · simp [onReelStopped, ih1]
      · simp only [onReelStopped, ih1, ih2]
        by_cases hj : j + 1 = c.reelsCount
        · have h1 : ¬ c.reelsCount ≤ j := by omega
          have h2 : c.reelsCount ≤ j + 1 := by omega
          simp [hj, h1, h2]
        · by_cases hle : c.reelsCount ≤ j
          · have h2 : c.reelsCount ≤ j + 1 := by omega
            simp [hj, hle, h2]
          · have h2 : ¬ c.reelsCount ≤ j + 1 := by omega
            simp [hj, hle, h2]
  refine ⟨fun s => by simp [onReelStopped], fun j => (aux j).2, ?_⟩
  intro s s' calls hok
  unfold areaStartSpinning at hok
  split at hok
  · exact absurd hok (by simp)
  · rw [Except.ok.injEq, Prod.mk.injEq] at hok
    rw [← hok.1]

/-- C7 witness: on the 6-reel demo configuration, starting from a zero
count, the sixth notification — and only the sixth — emits
`allStoppedSpinning`, and each notification increments the counter by one. -/
theorem c7_stop_counter_witness :
    ((onReelStopped gameConfig.reelsCount)^[6] ⟨0, 0⟩).allStoppedEmits = 1 ∧
    ((onReelStopped gameConfig.reelsCount)^[5] ⟨0, 0⟩).allStoppedEmits = 0 ∧
    (onReelStopped gameConfig.reelsCount ⟨3, 0⟩).reelsFinishedSpinningCount = 4 := by
  have h := c7_stop_counter gameConfig ⟨0, 0⟩ (by norm_num [gameConfig]) rfl
  refine ⟨?_, ?_, ?_⟩
  · have := h.2.1 6
    norm_num [gameConfig] at this
    exact this
  · have := h.2.1 5
    norm_num [gameConfig] at this
    exact this
  · have := h.1 ⟨3, 0⟩
    norm_num at this
    exact this


/-! ## Reel helper lemmas -/

lemma loopSymbol_fst_y (h H : Rat) (supply : Nat → Nat) (s : ReelSymbol)
    (k : Nat) : (loopSymbol h H supply s k).1.y = wrapY h H s.y := by
  simp only [loopSymbol, wrapY]
  split <;> rfl

lemma loopSymbol_k_le (h H : Rat) (supply : Nat → Nat) (s : ReelSymbol)
    (k : Nat) : k ≤ (loopSymbol h H supply s k).2 := by
  simp only [loopSymbol]
  split <;> simp

lemma loopReel_length (h H : Rat) (supply : Nat → Nat) :
    ∀ (l : List ReelSymbol) (k : Nat),
      ((loopReel h H supply l k).1).length = l.length := by
  intro l
  induction l with
  | nil => intro k; rfl
  | cons s rest ih =>
    intro k
    simp only [loopReel, List.length_cons]
    rw [ih]

lemma loopReel_ys (h H : Rat) (supply : Nat → Nat) :
    ∀ (l : List ReelSymbol) (k : Nat),
      ((loopReel h H supply l k).1).map ReelSymbol.y
        = (l.map ReelSymbol.y).map (wrapY h H) := by
  intro l
  induction l with
  | nil => intro k; rfl
  | cons s rest ih =>
    intro k
    simp only [loopReel, List.map_cons]
    rw [ih, loopSymbol_fst_y]

lemma reelStep_symbols_length (c : GameConfig) (supply : Nat → Nat)
    (s : ReelState) (e : ReelEv) :
    (reelStep c supply s e).symbols.length = s.symbols.length := by
  cases e <;>
    simp only [reelStep, doLoopReel, beginStoppingAnimation] <;>
    split_ifs <;>
    simp [loopReel_length]

/-! ## C8: the tile-count invariant -/

/-- C8: a reel is constructed with exactly `symbolsPerReel + 1` tiles, and
every sequence of operations of the reel state machine (start, ease-in
completion, loop frames, stop latch, stopping frames, stop completion), as
well as a bare `beginStoppingAnimation` entry, leaves the number of tiles at
exactly `symbolsPerReel + 1`. -/
theorem c8_tile_count (c : GameConfig) (supply : Nat → Nat) :
    (initReel c supply).symbols.length = c.symbolsPerReel + 1 ∧
    (∀ evs : List ReelEv,
      ((evs.foldl (reelStep c supply) (initReel c supply)).symbols.length
        = c.symbolsPerReel + 1)) ∧
    (∀ s : ReelState,
      (beginStoppingAnimation s).symbols.length = s.symbols.length) := by
  have hinit : (initReel c supply).symbols.length = c.symbolsPerReel + 1 := by
    simp [initReel]
  have aux : ∀ (evs : List ReelEv) (s : ReelState),
      (evs.foldl (reelStep c supply) s).symbols.length = s.symbols.length := by
    intro evs
    induction evs with
    | nil => intro s; rfl
    | cons e rest ih =>
      intro s
      rw [List.foldl_cons, ih, reelStep_symbols_length]
  refine ⟨hinit, fun evs => by rw [aux, hinit], ?_⟩
  intro s
  unfold beginStoppingAnimation
  split <;> rfl

/-! ## C10: a stop latched during ease-in is discarded -/

/-- C10: `stopSpinning` during the ease-in phase only sets the latch (the
phase, the stopping flag and the emission count are untouched, so the
stopping animation is not triggered), and the ease-in completion that
follows clears the latch before the looping run begins: the reel enters
`Looping` with `needsToStop = false` and keeps looping until a later stop
request. -/
theorem c10_stop_during_ease_in (c : GameConfig) (supply : Nat → Nat)
    (s : ReelState) (hp : s.phase = .easingIn) :
    (reelStep c supply s .stopCall).needsToStop = true ∧
    (reelStep c supply s .stopCall).phase = .easingIn ∧
    (reelStep c supply s .stopCall).stopping = s.stopping ∧
    (reelStep c supply s .stopCall).stoppedEmits = s.stoppedEmits ∧
    (reelStep c supply (reelStep c supply s .stopCall) .easeInDone).needsToStop
      = false ∧
    (reelStep c supply (reelStep c supply s .stopCall) .easeInDone).phase
      = .looping ∧
    (reelStep c supply (reelStep c supply s .stopCall) .easeInDone).stopping
      = s.stopping ∧
    (reelStep c supply (reelStep c supply s .stopCall) .easeInDone).stoppedEmits
      = s.stoppedEmits := by
  simp [reelStep, hp, doLoopReel]

/-- C10 witness: on the demo configuration, from a reel in its ease-in
phase, a stop request is latched but discarded at ease-in completion: the
reel is looping with the latch clear and nothing stopped. -/
theorem c10_stop_during_ease_in_witness :
    (reelStep gameConfig natSupply
      { initReel gameConfig natSupply with phase := .easingIn }
      .stopCall).needsToStop = true ∧
    (reelStep gameConfig natSupply
      (reelStep gameConfig natSupply
        { initReel gameConfig natSupply with phase := .easingIn } .stopCall)
      .easeInDone).needsToStop = false ∧
    (reelStep gameConfig natSupply
      (reelStep gameConfig natSupply
        { initReel gameConfig natSupply with phase := .easingIn } .stopCall)
      .easeInDone).phase = .looping := by
  have h := c10_stop_during_ease_in gameConfig natSupply
    { initReel gameConfig natSupply with phase := .easingIn } rfl
  exact ⟨h.1, h.2.2.2.2.1, h.2.2.2.2.2.1⟩

/-! ## C3: stop requests are honored only at wrap boundaries -/

/-- C3: `stopSpinning` only sets the `needsToStop` latch (whatever the
phase); the stopping animation is entered only from the looping phase, on a
loop-tween frame whose tween time has crossed a whole `cycleDuration`, with
the latch set, and that step performs the boundary's wrap-and-recycle pass
(the resulting symbols are `loopReel` of the previous ones) and starts the
stop (stopping set, back-out pending); moreover such a boundary frame always
pauses the loop tween (the phase leaves `looping`). -/
theorem c3_stop_deferred_to_wrap_boundary (c : GameConfig)
    (supply : Nat → Nat) :
    (∀ s : ReelState,
      reelStep c supply s .stopCall = { s with needsToStop := true }) ∧
    (∀ (s : ReelState) (e : ReelEv), s.phase ≠ .stopping →
      (reelStep c supply s e).phase = .stopping →
      s.phase = .looping ∧ s.needsToStop = true ∧ s.stopping = false ∧
      ∃ t, e = .loopFrame t ∧ spinningTweenDuration c < t ∧
        (reelStep c supply s e).symbols =
          (loopReel (symbolHeight c) c.reelAreaHeight supply
            s.symbols s.rng).1 ∧
        (reelStep c supply s e).stopping = true ∧
        (reelStep c supply s e).backoutStarted = false) ∧
    (∀ (s : ReelState) (t : Rat), s.phase = .looping →
      spinningTweenDuration c < t → s.needsToStop = true →
      (reelStep c supply s (.loopFrame t)).phase ≠ .looping) := by
  refine ⟨fun s => rfl, ?_, ?_⟩
  · intro s e hne hstop
    cases e with
    | startCall =>
      exfalso
      by_cases hp : s.phase = .idle
      · simp [reelStep, hp] at hstop
      · rw [reelStep, if_neg hp] at hstop
        exact hne hstop
    | easeInDone =>
      exfalso
      by_cases hp : s.phase = .easingIn
      · simp [reelStep, hp] at hstop
      · rw [reelStep, if_neg hp] at hstop
        exact hne hstop
    | stopCall =>
      exfalso
      exact hne hstop
    | stopFrame y =>
      exfalso
      by_cases hp : s.phase = .stopping
      · exact hne hp
      · rw [reelStep, if_neg hp] at hstop
        exact hne hstop
    | stopDone =>
      exfalso
      by_cases hp : s.phase = .stopping
      · exact hne hp
      · rw [reelStep, if_neg hp] at hstop
        exact hne hstop
    | loopFrame t =>
      by_cases hl : s.phase = .looping
      · by_cases hdt : spinningTweenDuration c < t
        · by_cases hns : s.needsToStop = true
          · by_cases hstp : s.stopping = true
            · exfalso
              simp [reelStep, hl, hdt, hns, beginStoppingAnimation, hstp,
                doLoopReel] at hstop
            · have hstpf : s.stopping = false := by
                simpa using hstp
              refine ⟨hl, hns, hstpf, t, rfl, hdt, ?_, ?_, ?_⟩ <;>
                simp [reelStep, hl, hdt, hns, beginStoppingAnimation, hstpf,
                  doLoopReel]
          · exfalso
            have hnsf : s.needsToStop = false := by simpa using hns
            simp [reelStep, hl, hdt, hnsf, doLoopReel] at hstop
        · exfalso
          simp [reelStep, hl, hdt] at hstop
      · exfalso
        rw [reelStep, if_neg hl] at hstop
        exact hne hstop
  · intro s t hl hdt hns
    by_cases hstp : s.stopping = true
    · simp [reelStep, hl, hdt, hns, beginStoppingAnimation, hstp, doLoopReel]
    · have hstpf : s.stopping = false := by simpa using hstp
      simp [reelStep, hl, hdt, hns, beginStoppingAnimation, hstpf, doLoopReel]

/-- C3 witness: on the demo configuration, from a looping reel with the stop
latched, the stop call is just the latch write, and the boundary frame at
tween time 84 ms (past the 250/3 ms cycle duration) starts the stop with the
back-out pending and pauses the loop tween. -/
theorem c3_stop_deferred_to_wrap_boundary_witness :
    reelStep gameConfig natSupply loopingLatchedState .stopCall
      = { loopingLatchedState with needsToStop := true } ∧
    (reelStep gameConfig natSupply loopingLatchedState
      (.loopFrame 84)).stopping = true ∧
    (reelStep gameConfig natSupply loopingLatchedState
      (.loopFrame 84)).backoutStarted = false ∧
    (reelStep gameConfig natSupply loopingLatchedState
      (.loopFrame 84)).phase ≠ .looping := by
  have h := c3_stop_deferred_to_wrap_boundary gameConfig natSupply
  have hd : spinningTweenDuration gameConfig < 84 := by
    norm_num [spinningTweenDuration, gameConfig]
  have hl : loopingLatchedState.phase = Phase.looping := rfl
  have hns : loopingLatchedState.needsToStop = true := rfl
  have hstop : (reelStep gameConfig natSupply loopingLatchedState
      (.loopFrame 84)).phase = Phase.stopping := by
    have hstpf : loopingLatchedState.stopping = false := rfl
    simp [reelStep, hl, hd, hns, hstpf, beginStoppingAnimation, doLoopReel]
  have h2 := h.2.1 loopingLatchedState (.loopFrame 84) (by rw [hl]; simp) hstop
  obtain ⟨-, -, -, t, -, -, -, hstopping, hback⟩ := h2
  exact ⟨h.1 loopingLatchedState, hstopping, hback,
    h.2.2 loopingLatchedState 84 hl hd hns⟩

/-! ## C2: the wrap-and-recycle pass -/

lemma loopReel_getElem_nowrap (h H : Rat) (supply : Nat → Nat) :
    ∀ (l : List ReelSymbol) (k i : Nat) (t : ReelSymbol), l[i]? = some t →
      ¬ H - 1/10 ≤ t.y + h →
      ((loopReel h H supply l k).1)[i]? = some ⟨t.y + h, t.tex⟩ := by
  intro l
  induction l with
  | nil => intro k i t hmem; simp at hmem
  | cons hd tl ih =>
    intro k i t hmem hcond
    cases i with
    | zero =>
      simp only [List.getElem?_cons_zero, Option.some.injEq] at hmem
      subst hmem
      simp only [loopReel, List.getElem?_cons_zero, Option.some.injEq]
      simp only [loopSymbol]
      rw [if_neg hcond]
    | succ i =>
      simp only [List.getElem?_cons_succ] at hmem
      simp only [loopReel, List.getElem?_cons_succ]
      exact ih _ i t hmem hcond

lemma loopReel_getElem_wrap (h H : Rat) (supply : Nat → Nat) :
    ∀ (l : List ReelSymbol) (k i : Nat) (t : ReelSymbol), l[i]? = some t →
      H - 1/10 ≤ t.y + h →
      ∃ j, k ≤ j ∧
        ((loopReel h H supply l k).1)[i]? = some ⟨-h, supply j⟩ := by
  intro l
  induction l with
  | nil => intro k i t hmem; simp at hmem
  | cons hd tl ih =>
    intro k i t hmem hcond
    cases i with
    | zero =>
      simp only [List.getElem?_cons_zero, Option.some.injEq] at hmem
      subst hmem
      refine ⟨k, le_refl k, ?_⟩
      simp only [loopReel, List.getElem?_cons_zero, Option.some.injEq]
      simp only [loopSymbol]
      rw [if_pos hcond]
    | succ i =>
      simp only [List.getElem?_cons_succ] at hmem
      obtain ⟨j, hkj, hj⟩ := ih (loopSymbol h H supply hd k).2 i t hmem hcond
      refine ⟨j, le_trans (loopSymbol_k_le h H supply hd k) hkj, ?_⟩
      simp only [loopReel, List.getElem?_cons_succ]
      exact hj

lemma loopReel_texes_from_state (c : GameConfig) (supply : Nat → Nat)
    (s : ReelState) (y : Rat) :
    (doLoopReel c supply { s with posY := y }).symbols.map ReelSymbol.tex
      = ((loopReel (symbolHeight c) c.reelAreaHeight supply
          s.symbols s.rng).1).map ReelSymbol.tex := by
  simp [doLoopReel]

/-- C2: in a wrap-and-recycle pass, every tile is advanced by one symbol
height; a tile whose advanced position has crossed the bottom viewport
boundary within eps = 0.1 is repositioned to just above the top boundary
and given a fresh draw from the random-texture supply, while a tile that
did not cross keeps both its advanced position and its texture; and no
other operation of the reel machine changes any tile's texture — the
non-boundary steps, the stop latch, the stopping-animation entry and the
back-out position shift all preserve the texture list, and the steps that
do change textures produce exactly the texture list of the single
`loopReel` pass they perform. -/
theorem c2_loop_reel_recycle (c : GameConfig) (supply : Nat → Nat) :
    (∀ (l : List ReelSymbol) (k i : Nat) (t : ReelSymbol), l[i]? = some t →
      ¬ c.reelAreaHeight - 1/10 ≤ t.y + symbolHeight c →
      ((loopReel (symbolHeight c) c.reelAreaHeight supply l k).1)[i]? =
        some ⟨t.y + symbolHeight c, t.tex⟩) ∧
    (∀ (l : List ReelSymbol) (k i : Nat) (t : ReelSymbol), l[i]? = some t →
      c.reelAreaHeight - 1/10 ≤ t.y + symbolHeight c →
      ∃ j, k ≤ j ∧
        ((loopReel (symbolHeight c) c.reelAreaHeight supply l k).1)[i]? =
          some ⟨-symbolHeight c, supply j⟩) ∧
    (∀ s : ReelState, texes (reelStep c supply s .startCall) = texes s) ∧
    (∀ s : ReelState, texes (reelStep c supply s .stopCall) = texes s) ∧
    (∀ s : ReelState, texes (beginStoppingAnimation s) = texes s) ∧
    (∀ (s : ReelState) (t : Rat), ¬ spinningTweenDuration c < t →
      texes (reelStep c supply s (.loopFrame t)) = texes s) ∧
    (∀ (s : ReelState) (t : Rat), s.phase = .looping →
      spinningTweenDuration c < t →
      texes (reelStep c supply s (.loopFrame t)) =
        ((loopReel (symbolHeight c) c.reelAreaHeight supply
          s.symbols s.rng).1).map ReelSymbol.tex) ∧
    (∀ (s : ReelState) (y : Rat),
      ¬ (s.backoutStarted = false ∧ symbolHeight c ≤ y) →
      texes (reelStep c supply s (.stopFrame y)) = texes s) ∧
    (∀ (s : ReelState) (y : Rat), s.phase = .stopping →
      s.backoutStarted = false → symbolHeight c ≤ y →
      texes (reelStep c supply s (.stopFrame y)) =
        ((loopReel (symbolHeight c) c.reelAreaHeight supply
          s.symbols s.rng).1).map ReelSymbol.tex) ∧
    (∀ s : ReelState, s.phase = .easingIn →
      texes (reelStep c supply s .easeInDone) =
        ((loopReel (symbolHeight c) c.reelAreaHeight supply
          s.symbols s.rng).1).map ReelSymbol.tex) ∧
    (∀ s : ReelState, s.phase = .stopping →
      texes (reelStep c supply s .stopDone) =
        ((loopReel (symbolHeight c) c.reelAreaHeight supply
          s.symbols s.rng).1).map ReelSymbol.tex) := by
  refine ⟨loopReel_getElem_nowrap _ _ _, loopReel_getElem_wrap _ _ _,
    ?_, ?_, ?_, ?_, ?_, ?_, ?_, ?_, ?_⟩
  · intro s
    by_cases hp : s.phase = .idle <;> simp [reelStep, hp, texes]
  · intro s
    simp [reelStep, texes]
  · intro s
    by_cases hst : s.stopping = true <;> simp [beginStoppingAnimation, hst, texes]
  · intro s t hdt
    by_cases hp : s.phase = .looping <;> simp [reelStep, hp, hdt, texes]
  · intro s t hp hdt
    by_cases hns : s.needsToStop = true <;>
      by_cases hst : s.stopping = true <;>
      simp [reelStep, hp, hdt, hns, hst, beginStoppingAnimation, doLoopReel,
        texes]
  · intro s y hfire
    by_cases hp : s.phase = .stopping
    · simp only [reelStep, hp, if_pos]
      rw [if_neg]
      · simp [texes]
      · simpa using hfire
    · simp [reelStep, hp, texes]
  · intro s y hp hb hy
    simp [reelStep, hp, hb, hy, doLoopReel, texes, List.map_map,
      Function.comp]
  · intro s hp
    simp [reelStep, hp, doLoopReel, texes]
  · intro s hp
    simp [reelStep, hp, doLoopReel, texes]

/-- C2 witness: on the demo geometry (symbol height 100, viewport height
400), a tile at 0 advances to 100 keeping its texture, a tile at 300
crosses the bottom boundary and is wrapped to -100 with a fresh supply
draw, and the stop latch leaves all textures unchanged. -/
theorem c2_loop_reel_recycle_witness :
    ((loopReel (symbolHeight gameConfig) gameConfig.reelAreaHeight natSupply
      [⟨0, 5⟩] 7).1)[0]? = some ⟨(0 : Rat) + symbolHeight gameConfig, 5⟩ ∧
    (∃ j, 7 ≤ j ∧
      ((loopReel (symbolHeight gameConfig) gameConfig.reelAreaHeight natSupply
        [⟨300, 5⟩] 7).1)[0]? =
          some ⟨-symbolHeight gameConfig, natSupply j⟩) ∧
    texes (reelStep gameConfig natSupply (initReel gameConfig natSupply)
      .stopCall) = texes (initReel gameConfig natSupply) := by
  have h := c2_loop_reel_recycle gameConfig natSupply
  refine ⟨h.1 [⟨0, 5⟩] 7 0 ⟨0, 5⟩ rfl ?_,
    h.2.1 [⟨300, 5⟩] 7 0 ⟨300, 5⟩ rfl ?_,
    h.2.2.2.1 (initReel gameConfig natSupply)⟩
  · norm_num [symbolHeight, gameConfig]
  · norm_num [symbolHeight, gameConfig]

/-! ## C4: idempotence of beginStoppingAnimation under double triggering -/

/-- C4 (code bug): in the main Reel, the second of two back-to-back
`beginStoppingAnimation` invocations is a no-op (the `stopping` guard
short-circuits) and the single in-flight stop emits exactly one
`stoppedSpinning` notification, a second completion being impossible once
the reel is idle; but in the four-direction draft the method body begins
with an unconditional return, so two invocations leave the reel unchanged,
never start a stop, and emit zero notifications instead of one. -/
theorem c4_double_stop_entry :
    beginStoppingAnimation
        (beginStoppingAnimation (initReel gameConfig natSupply))
      = beginStoppingAnimation (initReel gameConfig natSupply) ∧
    (reelStep gameConfig natSupply
      (beginStoppingAnimation
        (beginStoppingAnimation (initReel gameConfig natSupply)))
      .stopDone).stoppedEmits = 1 ∧
    (reelStep gameConfig natSupply
      (reelStep gameConfig natSupply
        (beginStoppingAnimation
          (beginStoppingAnimation (initReel gameConfig natSupply)))
        .stopDone) .stopDone).stoppedEmits = 1 ∧
    beginStoppingAnimationFourDir
        (beginStoppingAnimationFourDir (initReel gameConfig natSupply))
      = initReel gameConfig natSupply ∧
    (beginStoppingAnimationFourDir
      (beginStoppingAnimationFourDir
        (initReel gameConfig natSupply))).stoppedEmits = 0 ∧
    (beginStoppingAnimationFourDir
      (beginStoppingAnimationFourDir
        (initReel gameConfig natSupply))).stopping = false := by
  have hb : beginStoppingAnimation (initReel gameConfig natSupply)
      = { initReel gameConfig natSupply with
          stopping := true, backoutStarted := false, phase := .stopping } := by
    simp [beginStoppingAnimation, initReel]
  have hbb : beginStoppingAnimation
      (beginStoppingAnimation (initReel gameConfig natSupply))
      = beginStoppingAnimation (initReel gameConfig natSupply) := by
    rw [hb]
    simp [beginStoppingAnimation]
  have hstopDone : (reelStep gameConfig natSupply
      (beginStoppingAnimation
        (beginStoppingAnimation (initReel gameConfig natSupply)))
      .stopDone).stoppedEmits = 1 ∧
      (reelStep gameConfig natSupply
        (beginStoppingAnimation
          (beginStoppingAnimation (initReel gameConfig natSupply)))
        .stopDone).phase = .idle := by
    rw [hbb, hb]
    constructor <;> simp [reelStep, doLoopReel, initReel]
  refine ⟨hbb, hstopDone.1, ?_, rfl, rfl, rfl⟩
  have hid := hstopDone.2
  rw [reelStep, if_neg (by rw [hid]; simp)]
  exact hstopDone.1

/-! ## C5: the back-out compensation and the hasBackoutStarted flag -/

/-- C5 (code bug): in the main (downward) Reel the first stopping frame past
one symbol height performs the compensation and sets `backoutStarted`, and a
later frame leaves the symbols and the texture cursor untouched — the
compensation fires exactly once; but in the up/down draft with upward
motion, a frame past the lower threshold performs the compensation (the
texture cursor advances) while `backoutStarted` is set only on an
upper-threshold crossing, so the flag is still clear and the compensation
branch fires again on the very next crossing frame. -/
theorem c5_backout_once_per_stop :
    (reelStep gameConfig natSupply downStoppingState
      (.stopFrame 120)).backoutStarted = true ∧
    (reelStep gameConfig natSupply
      (reelStep gameConfig natSupply downStoppingState (.stopFrame 120))
      (.stopFrame 125)).symbols =
      (reelStep gameConfig natSupply downStoppingState
        (.stopFrame 120)).symbols ∧
    (reelStep gameConfig natSupply
      (reelStep gameConfig natSupply downStoppingState (.stopFrame 120))
      (.stopFrame 125)).rng =
      (reelStep gameConfig natSupply downStoppingState
        (.stopFrame 120)).rng ∧
    (stopFrameUD gameConfig natSupply .up upDraftRestState (-120)).rng
      = upDraftRestState.rng + 1 ∧
    (stopFrameUD gameConfig natSupply .up upDraftRestState
      (-120)).backoutStarted = false ∧
    backoutFiresUD gameConfig
      (stopFrameUD gameConfig natSupply .up upDraftRestState (-120))
      (-125) := by
  have hh : symbolHeight gameConfig = 100 := by
    norm_num [symbolHeight, gameConfig]
  have hH : gameConfig.reelAreaHeight = (400 : Rat) := rfl
  have hp : downStoppingState.phase = Phase.stopping := rfl
  have hcond : downStoppingState.backoutStarted = false
      ∧ symbolHeight gameConfig ≤ (120 : Rat) := by
    refine ⟨rfl, by rw [hh]; norm_num⟩
  have h1back : (reelStep gameConfig natSupply downStoppingState
      (.stopFrame 120)).backoutStarted = true := by
    simp [reelStep, hp, hcond, doLoopReel]
  have h1phase : (reelStep gameConfig natSupply downStoppingState
      (.stopFrame 120)).phase = Phase.stopping := by
    simp [reelStep, hp, hcond, doLoopReel, downStoppingState]
    split <;> rfl
  have h2 : reelStep gameConfig natSupply
      (reelStep gameConfig natSupply downStoppingState (.stopFrame 120))
      (.stopFrame 125) =
      { reelStep gameConfig natSupply downStoppingState (.stopFrame 120)
        with posY := 125 } := by
    rw [reelStep, if_pos h1phase, if_neg]
    rw [h1back]
    simp
  have hud : stopFrameUD gameConfig natSupply .up upDraftRestState (-120)
      = { upDraftRestState with
          symbols := [⟨500, 5⟩, ⟨100, 1⟩, ⟨200, 2⟩, ⟨300, 3⟩, ⟨400, 4⟩]
          posY := -120
          rng := 6 } := by
    have hdir : (MovingDirection.up = MovingDirection.down) = False :=
      eq_false (by decide)
    rw [stopFrameUD]
    simp only [upDraftRestState]
    norm_num [hh, hH, hdir, loopReelUD, updateSymbolPositionUD, natSupply]
  refine ⟨h1back, by rw [h2], by rw [h2], by rw [hud]; rfl,
    by rw [hud]; rfl, ?_⟩
  rw [hud]
  unfold backoutFiresUD
  rw [hh]
  refine ⟨rfl, Or.inr (by norm_num)⟩

/-! ## C9: round-trip of tile positions over a full start-stop cycle -/

lemma spr_mul_symbolHeight (c : GameConfig) (hsp : 1 ≤ c.symbolsPerReel) :
    (c.symbolsPerReel : Rat) * symbolHeight c = c.reelAreaHeight := by
  have hne0 : c.symbolsPerReel ≠ 0 := by omega
  have hne : (c.symbolsPerReel : Rat) ≠ 0 := Nat.cast_ne_zero.mpr hne0
  rw [symbolHeight, mul_comm, div_mul_cancel₀ _ hne]

lemma wrapY_rest (c : GameConfig) (hsp : 1 ≤ c.symbolsPerReel)
    (hh : 1/10 < symbolHeight c) :
    ∀ j, j < c.symbolsPerReel + 1 →
      wrapY (symbolHeight c) c.reelAreaHeight (restOffset c j)
        = restOffset c ((j + 1) % (c.symbolsPerReel + 1)) := by
  intro j hj
  have hH : (c.symbolsPerReel : Rat) * symbolHeight c = c.reelAreaHeight :=
    spr_mul_symbolHeight c hsp
  have hpos : (0 : Rat) < symbolHeight c := lt_trans (by norm_num) hh
  by_cases hje : j = c.symbolsPerReel
  · subst hje
    have hcond : c.reelAreaHeight - 1/10
        ≤ restOffset c c.symbolsPerReel + symbolHeight c := by
      rw [restOffset, ← hH]
      ring_nf
      nlinarith [hpos]
    rw [wrapY, if_pos hcond, Nat.mod_self]
    rw [restOffset]
    push_cast
    ring
  · have hjlt : j < c.symbolsPerReel := by omega
    have hjc : (j : Rat) ≤ (c.symbolsPerReel : Rat) - 1 := by
      have : (j : Rat) + 1 ≤ (c.symbolsPerReel : Rat) := by
        exact_mod_cast Nat.succ_le_of_lt hjlt
      linarith
    have hcond : ¬ c.reelAreaHeight - 1/10
        ≤ restOffset c j + symbolHeight c := by
      rw [restOffset, ← hH]
      intro hc
      nlinarith [hpos, hjc]
    rw [wrapY, if_neg hcond, Nat.mod_eq_of_lt (by omega)]
    rw [restOffset, restOffset]
    push_cast
    ring

lemma wrapY_rest_shifted (c : GameConfig) (hsp : 1 ≤ c.symbolsPerReel)
    (hh : 1/10 < symbolHeight c) :
    ∀ j, j < c.symbolsPerReel + 1 →
      wrapY (symbolHeight c) c.reelAreaHeight
        (restOffset c j - symbolHeight c) = restOffset c j := by
  intro j hj
  have hH : (c.symbolsPerReel : Rat) * symbolHeight c = c.reelAreaHeight :=
    spr_mul_symbolHeight c hsp
  have hpos : (0 : Rat) < symbolHeight c := lt_trans (by norm_num) hh
  have hjc : (j : Rat) ≤ (c.symbolsPerReel : Rat) := by
    exact_mod_cast Nat.lt_succ_iff.mp hj
  have hcond : ¬ c.reelAreaHeight - 1/10
      ≤ restOffset c j - symbolHeight c + symbolHeight c := by
    rw [restOffset, ← hH]
    intro hc
    nlinarith [hpos, hjc, hh]
  rw [wrapY, if_neg hcond]
  ring

lemma rotPositions_map_wrapY (c : GameConfig) (hsp : 1 ≤ c.symbolsPerReel)
    (hh : 1/10 < symbolHeight c) (m : Nat) :
    (rotPositions c m).map (wrapY (symbolHeight c) c.reelAreaHeight)
      = rotPositions c (m + 1) := by
  unfold rotPositions
  rw [List.map_map]
  apply List.map_congr_left
  intro i hi
  have hn : 0 < c.symbolsPerReel + 1 := by omega
  simp only [Function.comp_apply]
  rw [wrapY_rest c hsp hh _ (Nat.mod_lt _ hn)]
  congr 1
  have hone : 1 % (c.symbolsPerReel + 1) = 1 :=
    Nat.mod_eq_of_lt (by omega)
  conv_rhs => rw [show i + (m + 1) = i + m + 1 by omega, Nat.add_mod, hone]

lemma rotPositions_shift_map_wrapY (c : GameConfig)
    (hsp : 1 ≤ c.symbolsPerReel) (hh : 1/10 < symbolHeight c) (m : Nat) :
    ((rotPositions c m).map (fun y => y - symbolHeight c)).map
        (wrapY (symbolHeight c) c.reelAreaHeight)
      = rotPositions c m := by
  unfold rotPositions
  rw [List.map_map, List.map_map]
  apply List.map_congr_left
  intro i hi
  have hn : 0 < c.symbolsPerReel + 1 := by omega
  simp only [Function.comp_apply]
  exact wrapY_rest_shifted c hsp hh _ (Nat.mod_lt _ hn)

lemma initReel_posList (c : GameConfig) (supply : Nat → Nat) :
    posList (initReel c supply) = rotPositions c 0 := by
  unfold posList initReel rotPositions restOffset
  rw [List.map_map]
  apply List.map_congr_left
  intro i hi
  rw [List.mem_range] at hi
  simp only [Function.comp_apply]
  rw [Nat.add_zero, Nat.mod_eq_of_lt hi]

lemma doLoopReel_posList (c : GameConfig) (supply : Nat → Nat)
    (s : ReelState) :
    posList (doLoopReel c supply s)
      = (posList s).map (wrapY (symbolHeight c) c.reelAreaHeight) := by
  unfold posList doLoopReel
  rw [loopReel_ys]

lemma list_toFinset_map {α β : Type} [DecidableEq α] [DecidableEq β]
    (f : α → β) (l : List α) : (l.map f).toFinset = l.toFinset.image f := by
  ext b
  simp [List.mem_toFinset, List.mem_map, Finset.mem_image]

lemma list_range_toFinset (n : Nat) :
    (List.range n).toFinset = Finset.range n := by
  ext a
  simp [List.mem_toFinset, List.mem_range, Finset.mem_range]

lemma image_shift_mod (n m : Nat) (hn : 0 < n) :
    (Finset.range n).image (fun i => (i + m) % n) = Finset.range n := by
  have hsub : (Finset.range n).image (fun i => (i + m) % n)
      ⊆ Finset.range n := by
    intro x hx
    rw [Finset.mem_image] at hx
    obtain ⟨i, -, rfl⟩ := hx
    rw [Finset.mem_range]
    exact Nat.mod_lt _ hn
  have hinj : Set.InjOn (fun i => (i + m) % n) (Finset.range n) := by
    intro a ha b hb hab
    rw [Finset.coe_range, Set.mem_Iio] at ha hb
    have hmod : a ≡ b [MOD n] := Nat.ModEq.add_right_cancel' m hab
    rw [Nat.ModEq] at hmod
    rw [Nat.mod_eq_of_lt ha, Nat.mod_eq_of_lt hb] at hmod
    exact hmod
  have hcard : (Finset.range n).card
      ≤ ((Finset.range n).image (fun i => (i + m) % n)).card := by
    rw [Finset.card_image_of_injOn hinj]
  exact Finset.eq_of_subset_of_card_le hsub hcard

lemma rotPositions_toFinset (c : GameConfig) (m : Nat) :
    (rotPositions c m).toFinset
      = (Finset.range (c.symbolsPerReel + 1)).image (restOffset c) := by
  unfold rotPositions
  rw [list_toFinset_map, list_range_toFinset]
  have hcomp : (fun i => restOffset c ((i + m) % (c.symbolsPerReel + 1)))
      = restOffset c ∘ (fun i => (i + m) % (c.symbolsPerReel + 1)) := rfl
  rw [hcomp, ← Finset.image_image, image_shift_mod _ _ (by omega)]

lemma crossing_stop_entry (c : GameConfig) (supply : Nat → Nat)
    (s : ReelState) (t : Rat) (hp : s.phase = .looping)
    (hns : s.needsToStop = true) (hst : s.stopping = false)
    (hdt : spinningTweenDuration c < t) :
    reelStep c supply s (.loopFrame t) =
      { doLoopReel c supply s with
        posY := symbolHeight c * qmod t (spinningTweenDuration c)
          / spinningTweenDuration c,
        stopping := true, backoutStarted := false, phase := .stopping } := by
  simp [reelStep, hp, hdt, hns, hst, beginStoppingAnimation, doLoopReel]

lemma backout_fire_step (c : GameConfig) (supply : Nat → Nat)
    (s : ReelState) (y : Rat) (hp : s.phase = .stopping)
    (hb : s.backoutStarted = false) (hy : symbolHeight c ≤ y) :
    reelStep c supply s (.stopFrame y) =
      { doLoopReel c supply s with
        symbols := (loopReel (symbolHeight c) c.reelAreaHeight supply
          s.symbols s.rng).1.map
            (fun u => { u with y := u.y - symbolHeight c }),
        posY := y,
        backoutStarted := true } := by
  simp [reelStep, hp, hb, hy, doLoopReel]

lemma stop_done_step (c : GameConfig) (supply : Nat → Nat) (s : ReelState)
    (hp : s.phase = .stopping) :
    reelStep c supply s .stopDone =
      { doLoopReel c supply s with
        posY := 0
        stopping := false
        stoppedEmits := s.stoppedEmits + 1
        phase := .idle } := by
  simp [reelStep, hp, doLoopReel]

lemma loopFrame_LoopInv (c : GameConfig) (supply : Nat → Nat)
    (hsp : 1 ≤ c.symbolsPerReel) (hh : 1/10 < symbolHeight c)
    (s : ReelState) (t : Rat) (hInv : LoopInv c s) :
    LoopInv c (reelStep c supply s (.loopFrame t)) := by
  obtain ⟨hp, hns, hst, hse, m, hpos⟩ := hInv
  by_cases hdt : spinningTweenDuration c < t
  · have heq : reelStep c supply s (.loopFrame t) =
        { doLoopReel c supply s with
          posY := symbolHeight c * qmod t (spinningTweenDuration c)
            / spinningTweenDuration c } := by
      simp [reelStep, hp, hdt, hns, doLoopReel]
    rw [heq]
    refine ⟨hp, hns, hst, hse, m + 1, ?_⟩
    have hpl : posList { doLoopReel c supply s with
        posY := symbolHeight c * qmod t (spinningTweenDuration c)
          / spinningTweenDuration c } = posList (doLoopReel c supply s) := rfl
    rw [hpl, doLoopReel_posList, hpos, rotPositions_map_wrapY c hsp hh]
  · have heq : reelStep c supply s (.loopFrame t) =
        { s with posY := symbolHeight c * t / spinningTweenDuration c } := by
      simp [reelStep, hp, hdt]
    rw [heq]
    exact ⟨hp, hns, hst, hse, m, hpos⟩

lemma foldl_loopFrames_LoopInv (c : GameConfig) (supply : Nat → Nat)
    (hsp : 1 ≤ c.symbolsPerReel) (hh : 1/10 < symbolHeight c) :
    ∀ (ts : List Rat) (s : ReelState), LoopInv c s →
      LoopInv c (ts.foldl (fun s t => reelStep c supply s (.loopFrame t)) s) := by
  intro ts
  induction ts with
  | nil => intro s hInv; exact hInv
  | cons t rest ih =>
    intro s hInv
    rw [List.foldl_cons]
    exact ih _ (loopFrame_LoopInv c supply hsp hh s t hInv)

lemma easeIn_LoopInv (c : GameConfig) (supply : Nat → Nat)
    (hsp : 1 ≤ c.symbolsPerReel) (hh : 1/10 < symbolHeight c) :
    LoopInv c (reelStep c supply
      (reelStep c supply (initReel c supply) .startCall) .easeInDone) := by
  have hA : reelStep c supply (initReel c supply) .startCall
      = { initReel c supply with phase := .easingIn } := by
    simp [reelStep, initReel]
  have hB : reelStep c supply { initReel c supply with phase := .easingIn }
      .easeInDone
      = { doLoopReel c supply { initReel c supply with phase := .easingIn }
          with posY := 0, needsToStop := false, phase := .looping } := by
    simp [reelStep, doLoopReel]
  rw [hA, hB]
  refine ⟨rfl, rfl, rfl, rfl, 1, ?_⟩
  have h1 : posList { doLoopReel c supply
      { initReel c supply with phase := .easingIn }
      with posY := 0, needsToStop := false, phase := .looping }
      = posList (doLoopReel c supply
        { initReel c supply with phase := .easingIn }) := rfl
  rw [h1, doLoopReel_posList]
  have h2 : posList { initReel c supply with phase := Phase.easingIn }
      = posList (initReel c supply) := rfl
  rw [h2, initReel_posList, rotPositions_map_wrapY c hsp hh]

lemma shifted_pass_posList (c : GameConfig) (supply : Nat → Nat)
    (s : ReelState) :
    ((loopReel (symbolHeight c) c.reelAreaHeight supply s.symbols s.rng).1.map
      (fun u => { u with y := u.y - symbolHeight c })).map ReelSymbol.y
    = ((posList s).map (wrapY (symbolHeight c) c.reelAreaHeight)).map
        (fun y => y - symbolHeight c) := by
  rw [List.map_map]
  have h1 : (ReelSymbol.y ∘ fun u : ReelSymbol =>
      { u with y := u.y - symbolHeight c })
      = fun u : ReelSymbol => u.y - symbolHeight c := rfl
  rw [h1]
  have h2 : ((posList s).map (wrapY (symbolHeight c) c.reelAreaHeight)).map
      (fun y => y - symbolHeight c)
      = ((loopReel (symbolHeight c) c.reelAreaHeight supply
          s.symbols s.rng).1.map ReelSymbol.y).map
            (fun y => y - symbolHeight c) := by
    rw [loopReel_ys]
    rfl
  rw [h2, List.map_map]
  rfl

/-- C9: over one full start-stop cycle (ease-in completion with its recycle
pass, any number of loop frames, the stop latch, the boundary hand-off, the
back-out compensation and the completion with its final recycle pass and
bulk-offset reset), the set of tile positions returns to the same resting
grid `{ -h, 0, h, ..., (symbolsPerReel - 1) * h }` the tiles occupied at
construction, the bulk offset is back at 0 and the reel is idle having
emitted its stop notification; only texture identities may differ. -/
theorem c9_round_trip (c : GameConfig) (supply : Nat → Nat)
    (hsp : 1 ≤ c.symbolsPerReel) (hh : 1/10 < symbolHeight c)
    (ts : List Rat) (tStop yStop : Rat)
    (hdt : spinningTweenDuration c < tStop)
    (hy : symbolHeight c ≤ yStop) :
    (posList (fullCycle c supply ts tStop yStop)).toFinset
      = (posList (initReel c supply)).toFinset ∧
    (posList (initReel c supply)).toFinset
      = (Finset.range (c.symbolsPerReel + 1)).image (restOffset c) ∧
    (fullCycle c supply ts tStop yStop).posY = 0 ∧
    (fullCycle c supply ts tStop yStop).phase = .idle ∧
    (fullCycle c supply ts tStop yStop).stoppedEmits = 1 := by
  unfold fullCycle
  set sC := ts.foldl (fun s t => reelStep c supply s (.loopFrame t))
    (reelStep c supply
      (reelStep c supply (initReel c supply) .startCall) .easeInDone)
    with hsC
  have hInv : LoopInv c sC := by
    rw [hsC]
    exact foldl_loopFrames_LoopInv c supply hsp hh ts _
      (easeIn_LoopInv c supply hsp hh)
  obtain ⟨hpC, hnsC, hstC, hseC, m, hposC⟩ := hInv
  have hD : reelStep c supply sC .stopCall
      = { sC with needsToStop := true } := rfl
  rw [hD]
  have hE := crossing_stop_entry c supply { sC with needsToStop := true }
    tStop hpC rfl hstC hdt
  rw [hE]
  set sE := { doLoopReel c supply { sC with needsToStop := true } with
    posY := symbolHeight c * qmod tStop (spinningTweenDuration c)
      / spinningTweenDuration c
    stopping := true
    backoutStarted := false
    phase := Phase.stopping } with hsE
  have hF := backout_fire_step c supply sE yStop rfl rfl hy
  rw [hF]
  set sF : ReelState := { doLoopReel c supply sE with
    symbols := (loopReel (symbolHeight c) c.reelAreaHeight supply
      sE.symbols sE.rng).1.map
        (fun u : ReelSymbol => { u with y := u.y - symbolHeight c })
    posY := yStop
    backoutStarted := true } with hsF
  have hG := stop_done_step c supply sF rfl
  rw [hG]
  have hposE : posList sE = rotPositions c (m + 1) := by
    have h1 : posList sE
        = posList (doLoopReel c supply { sC with needsToStop := true }) := rfl
    have h2 : posList ({ sC with needsToStop := true } : ReelState)
        = posList sC := rfl
    rw [h1, doLoopReel_posList, h2, hposC, rotPositions_map_wrapY c hsp hh]
  have hposF : posList sF
      = (rotPositions c (m + 2)).map (fun y => y - symbolHeight c) := by
    have h1 : posList sF
        = ((loopReel (symbolHeight c) c.reelAreaHeight supply
            sE.symbols sE.rng).1.map
              (fun u => { u with y := u.y - symbolHeight c })).map
                ReelSymbol.y := rfl
    rw [h1, shifted_pass_posList, hposE, rotPositions_map_wrapY c hsp hh]
  have hposG : posList { doLoopReel c supply sF with
      posY := 0
      stopping := false
      stoppedEmits := sF.stoppedEmits + 1
      phase := Phase.idle } = rotPositions c (m + 2) := by
    have h1 : posList { doLoopReel c supply sF with
        posY := 0
        stopping := false
        stoppedEmits := sF.stoppedEmits + 1
        phase := Phase.idle } = posList (doLoopReel c supply sF) := rfl
    rw [h1, doLoopReel_posList, hposF,
      rotPositions_shift_map_wrapY c hsp hh]
  refine ⟨?_, ?_, rfl, rfl, ?_⟩
  · rw [hposG, initReel_posList, rotPositions_toFinset, rotPositions_toFinset]
  · rw [initReel_posList, rotPositions_toFinset]
  · show sF.stoppedEmits + 1 = 1
    have hsFe : sF.stoppedEmits = sC.stoppedEmits := rfl
    rw [hsFe, hseC]

/-- C9 witness: on the demo configuration (4 symbols per reel, symbol
height 100), a concrete full cycle (no extra loop frames, boundary frame at
84 ms, back-out frame at offset 100) returns the tile-position set to the
resting grid, with the bulk offset at 0, the reel idle and one stop
notification emitted. -/
theorem c9_round_trip_witness :
    (posList (fullCycle gameConfig natSupply [] 84 100)).toFinset
      = (posList (initReel gameConfig natSupply)).toFinset ∧
    (fullCycle gameConfig natSupply [] 84 100).posY = 0 ∧
    (fullCycle gameConfig natSupply [] 84 100).phase = .idle ∧
    (fullCycle gameConfig natSupply [] 84 100).stoppedEmits = 1 := by
  have h := c9_round_trip gameConfig natSupply (by norm_num [gameConfig])
    (by norm_num [symbolHeight, gameConfig])
    [] 84 100 (by norm_num [spinningTweenDuration, gameConfig])
    (by norm_num [symbolHeight, gameConfig])
  exact ⟨h.1, h.2.2.1, h.2.2.2.1, h.2.2.2.2⟩
